import Mathlib

/-!
A verification development for the combat-log viewer's ingestion and
windowed-aggregation engine (`src/scripts/parser.js`).

The JavaScript source is shallowly embedded: the mutable module-level
globals (`entities`, `globalStats`, `timeBounds`, `timeFilter`) become an
explicit `ParserState` record threaded through the parsing functions, and
the JavaScript string/number builtins used by the parser (`String.prototype.trim`,
`String.prototype.split`, `Number`) are modelled as executable Lean functions
over `List Char` so that every definition evaluates inside the kernel.
JavaScript numbers are modelled as `Int`: the log grammar only produces
optionally-signed decimal integer literals for its numeric fields.
-/

namespace LogViewer

/-- Model of JavaScript `String.prototype.trim`: drop whitespace from both
ends of the character list. -/
def jsTrim (s : String) : String :=
  ⟨((s.data.dropWhile Char.isWhitespace).reverse.dropWhile Char.isWhitespace).reverse⟩

/-- Auxiliary splitter for `jsSplit`: accumulates the current field in
reverse, emitting a field at each separator, as JavaScript
`String.prototype.split` does for a single-character separator. -/
def splitOnCharAux (sep : Char) : List Char → List Char → List (List Char)
  | [], acc => [acc.reverse]
  | c :: rest, acc =>
    if c = sep then acc.reverse :: splitOnCharAux sep rest []
    else splitOnCharAux sep rest (c :: acc)

/-- Model of JavaScript `str.split(sep)` for a single-character separator
(the parser only splits on `","`). `"".split(",")` is `[""]` and a trailing
separator produces a trailing empty field, exactly as in JavaScript. -/
def jsSplit (sep : Char) (s : String) : List String :=
  (splitOnCharAux sep s.data []).map fun cs => ⟨cs⟩

/-- Auxiliary splitter for `splitLogLines`: splits a character list on the
regular expression `\r?\n` (an `"\r\n"` pair or a lone `"\n"`; a lone
`"\r"` is ordinary content), as the file handler's `text.split(/\r?\n/)`. -/
def splitLogLinesAux : List Char → List Char → List (List Char)
  | [], acc => [acc.reverse]
  | '\r' :: '\n' :: rest, acc => acc.reverse :: splitLogLinesAux rest []
  | '\n' :: rest, acc => acc.reverse :: splitLogLinesAux rest []
  | c :: rest, acc => splitLogLinesAux rest (c :: acc)

/-- Model of the file handler's `text.split(/\r?\n/)`. -/
def splitLogLines (text : String) : List String :=
  (splitLogLinesAux text.data []).map fun cs => ⟨cs⟩

/-- Decimal digits folded to a natural number. -/
def digitsToNat (cs : List Char) : Nat :=
  cs.foldl (fun n c => n * 10 + (c.toNat - 48)) 0

/-- Model of the JavaScript `Number(string)` conversion on the inputs the
log grammar produces: a whitespace-only (in particular empty) string
converts to `0`, an optionally signed nonempty string of decimal digits
converts to the corresponding integer, and anything else is `NaN`
(`none`).  (Full JavaScript `Number` also accepts fractional, exponent and
radix-prefixed literals; those never occur in this log format and are
outside the model.) -/
def jsNumber (str : String) : Option Int :=
  match (jsTrim str).data with
  | [] => some 0
  | '-' :: rest =>
    if rest ≠ [] ∧ rest.all Char.isDigit then some (-(digitsToNat rest : Int)) else none
  | '+' :: rest =>
    if rest ≠ [] ∧ rest.all Char.isDigit then some ((digitsToNat rest : Int)) else none
  | c :: rest =>
    if (c :: rest).all Char.isDigit then some ((digitsToNat (c :: rest) : Int)) else none

-- --- Core data structures (parser.js lines 1-62) ---------------------------

/-- A damage-done or heal-done record as pushed onto `damageEvents` /
`healEvents` (the source entity's lists): the acting entity is implicit in
the owning list, the other party is the `target` field. -/
structure DoneEvent where
  timestamp : Int
  type : String
  target : String
  skill : String
  amount : Int
  pool : String
  hitType : String
deriving DecidableEq, Repr

/-- A damage-taken record as pushed onto `damageTakenEvents` (the target
entity's list): the other party is the `source` field. -/
structure TakenEvent where
  timestamp : Int
  type : String
  source : String
  skill : String
  amount : Int
  pool : String
  hitType : String
deriving DecidableEq, Repr

/-- A BUFF/DEBUFF record. `effectId` is `Number(effectIdStr)` when that is
not NaN, otherwise the raw string (`Sum.inr`). -/
structure EffectEvent where
  timestamp : Int
  type : String
  source : String
  target : String
  effectName : String
  effectId : Sum Int String
deriving DecidableEq, Repr

/-- The per-entity record created by `getEntity` (parser.js lines 32-53). -/
structure Entity where
  name : String
  damageDone : Int
  healingDone : Int
  damageReceived : Int
  damageEvents : List DoneEvent
  healEvents : List DoneEvent
  damageTakenEvents : List TakenEvent
  buffsApplied : List EffectEvent
  debuffsApplied : List EffectEvent
  buffsReceived : List EffectEvent
  debuffsReceived : List EffectEvent
deriving DecidableEq, Repr

/-- The `byType` counters of `globalStats`. -/
structure ByType where
  DMG : Nat
  DOT : Nat
  HEAL : Nat
  ENERGIZE : Nat
  BUFF : Nat
  DEBUFF : Nat
deriving DecidableEq, Repr

/-- The `globalStats` object. -/
structure GlobalStats where
  totalLines : Nat
  parsedLines : Nat
  skippedLines : Nat
  byType : ByType
deriving DecidableEq, Repr

/-- The `timeBounds` object; `none` models the initial `null`. -/
structure TimeBounds where
  min : Option Int
  max : Option Int
deriving DecidableEq, Repr

/-- The `timeFilter` object; `none` models the initial `null`. -/
structure TimeFilter where
  enabled : Bool
  start : Option Int
  «end» : Option Int
deriving DecidableEq, Repr

/-- The module-level mutable globals of parser.js, threaded explicitly.
The `entities` `Map` is an insertion-ordered list of entities with
pairwise-distinct names. -/
structure ParserState where
  entities : List Entity
  stats : GlobalStats
  bounds : TimeBounds
  filter : TimeFilter
deriving DecidableEq, Repr

/-- The fresh entity record `getEntity` installs on first reference. -/
def freshEntity (name : String) : Entity :=
  { name := name
    damageDone := 0
    healingDone := 0
    damageReceived := 0
    damageEvents := []
    healEvents := []
    damageTakenEvents := []
    buffsApplied := []
    debuffsApplied := []
    buffsReceived := []
    debuffsReceived := [] }

/-- The `entities.get(name)` lookup: first entity with the given name. -/
def findEntity (es : List Entity) (name : String) : Option Entity :=
  es.find? fun e => e.name = name

/-- The registration side of `getEntity` (parser.js lines 32-53): if the
name is absent, append a fresh entity; the `Map` keeps insertion order. -/
def getEntity (es : List Entity) (name : String) : List Entity :=
  if (findEntity es name).isSome then es else es ++ [freshEntity name]

/-- In-place mutation of the entity object returned by `getEntity`,
modelled as updating every entity with the given name (names are unique,
so at most one is touched). -/
def modifyEntity (es : List Entity) (name : String) (f : Entity → Entity) : List Entity :=
  es.map fun e => if e.name = name then f e else e

/-- Embeds `updateTimeBounds` (parser.js lines 55-62): widen the observed bounds;
`timeBounds.min === null || timestamp < timeBounds.min` sets the minimum,
and symmetrically for the maximum. -/
def updateTimeBounds (b : TimeBounds) (timestamp : Int) : TimeBounds :=
  { min := match b.min with
           | none => some timestamp
           | some m => if timestamp < m then some timestamp else some m
    max := match b.max with
           | none => some timestamp
           | some m => if timestamp > m then some timestamp else some m }

/-- Bump `globalStats.byType[type]`; only ever called with one of the six
known tags. -/
def bumpByType (bt : ByType) (type : String) : ByType :=
  if type = "DMG" then { bt with DMG := bt.DMG + 1 }
  else if type = "DOT" then { bt with DOT := bt.DOT + 1 }
  else if type = "HEAL" then { bt with HEAL := bt.HEAL + 1 }
  else if type = "ENERGIZE" then { bt with ENERGIZE := bt.ENERGIZE + 1 }
  else if type = "BUFF" then { bt with BUFF := bt.BUFF + 1 }
  else if type = "DEBUFF" then { bt with DEBUFF := bt.DEBUFF + 1 }
  else bt

/-- Increment `globalStats.skippedLines`. -/
def bumpSkipped (s : ParserState) : ParserState :=
  { s with stats := { s.stats with skippedLines := s.stats.skippedLines + 1 } }

-- --- Parsing logic (parser.js lines 209-367) -------------------------------

/-- Embeds `parseNumericEvent` (parser.js lines 246-330).  Requires ≥ 8 fields and
a numeric amount; on success bumps `parsedLines`/`byType`, widens the time
bounds, creates source and target entities, and for DMG/DOT/HEAL stores the
sign-normalized amount (`amountRaw < 0 ? -amountRaw : amountRaw`, resp.
`Math.abs(amountRaw)`).  ENERGIZE builds a record that is never retained. -/
def parseNumericEvent (timestamp : Int) (type : String) (parts : List String)
    (s : ParserState) : ParserState :=
  if parts.length < 8 then bumpSkipped s
  else
    let sourceName := parts.getD 2 ""
    let targetName := parts.getD 3 ""
    let skill := parts.getD 4 ""
    let amountStr := parts.getD 5 ""
    let pool := parts.getD 6 ""
    let hitType := parts.getD 7 ""
    match jsNumber amountStr with
    | none => bumpSkipped s
    | some amountRaw =>
      let stats := { s.stats with parsedLines := s.stats.parsedLines + 1
                                  byType := bumpByType s.stats.byType type }
      let bounds := updateTimeBounds s.bounds timestamp
      let es0 := getEntity (getEntity s.entities sourceName) targetName
      if type = "DMG" ∨ type = "DOT" then
        let dmgAmount := if amountRaw < 0 then -amountRaw else amountRaw
        let dmgEvent : DoneEvent :=
          { timestamp := timestamp, type := type, target := targetName
            skill := skill, amount := dmgAmount, pool := pool, hitType := hitType }
        let dmgTakenEvent : TakenEvent :=
          { timestamp := timestamp, type := type, source := sourceName
            skill := skill, amount := dmgAmount, pool := pool, hitType := hitType }
        let es1 := modifyEntity es0 sourceName fun e =>
          { e with damageDone := e.damageDone + dmgAmount
                   damageEvents := e.damageEvents ++ [dmgEvent] }
        let es2 := modifyEntity es1 targetName fun e =>
          { e with damageReceived := e.damageReceived + dmgAmount
                   damageTakenEvents := e.damageTakenEvents ++ [dmgTakenEvent] }
        { s with stats := stats, bounds := bounds, entities := es2 }
      else if type = "HEAL" then
        let healAmount := |amountRaw|
        let healEvent : DoneEvent :=
          { timestamp := timestamp, type := type, target := targetName
            skill := skill, amount := healAmount, pool := pool, hitType := hitType }
        let es1 := modifyEntity es0 sourceName fun e =>
          { e with healingDone := e.healingDone + healAmount
                   healEvents := e.healEvents ++ [healEvent] }
        { s with stats := stats, bounds := bounds, entities := es1 }
      else
        -- ENERGIZE: the regen record is built but not pushed anywhere
        { s with stats := stats, bounds := bounds, entities := es0 }

/-- Embeds `parseEffectEvent` (parser.js lines 332-367).  Requires ≥ 6 fields;
always parses (no NaN check on `effectId`), bumps counters and bounds, and
pushes the record to the source's applied list and the target's received
list. -/
def parseEffectEvent (timestamp : Int) (type : String) (parts : List String)
    (s : ParserState) : ParserState :=
  if parts.length < 6 then bumpSkipped s
  else
    let sourceName := parts.getD 2 ""
    let targetName := parts.getD 3 ""
    let effectName := parts.getD 4 ""
    let effectIdStr := parts.getD 5 ""
    let stats := { s.stats with parsedLines := s.stats.parsedLines + 1
                                byType := bumpByType s.stats.byType type }
    let bounds := updateTimeBounds s.bounds timestamp
    let es0 := getEntity (getEntity s.entities sourceName) targetName
    let effectEvent : EffectEvent :=
      { timestamp := timestamp, type := type, source := sourceName
        target := targetName, effectName := effectName
        effectId := match jsNumber effectIdStr with
                    | some n => Sum.inl n
                    | none => Sum.inr effectIdStr }
    if type = "BUFF" then
      let es1 := modifyEntity es0 sourceName fun e =>
        { e with buffsApplied := e.buffsApplied ++ [effectEvent] }
      let es2 := modifyEntity es1 targetName fun e =>
        { e with buffsReceived := e.buffsReceived ++ [effectEvent] }
      { s with stats := stats, bounds := bounds, entities := es2 }
    else
      let es1 := modifyEntity es0 sourceName fun e =>
        { e with debuffsApplied := e.debuffsApplied ++ [effectEvent] }
      let es2 := modifyEntity es1 targetName fun e =>
        { e with debuffsReceived := e.debuffsReceived ++ [effectEvent] }
      { s with stats := stats, bounds := bounds, entities := es2 }

/-- Embeds `parseLine` (parser.js lines 209-244): trim, ignore blank lines, count
the line, split on commas (trimming each field), then dispatch on the kind
tag; unknown tags, short lines and non-numeric timestamps are skipped. -/
def parseLine (line : String) (s : ParserState) : ParserState :=
  let trimmed := jsTrim line
  if trimmed = "" then s
  else
    let s1 := { s with stats := { s.stats with totalLines := s.stats.totalLines + 1 } }
    let parts := (jsSplit ',' trimmed).map jsTrim
    if parts.length < 2 then bumpSkipped s1
    else
      let timestampStr := parts.getD 0 ""
      let type := parts.getD 1 ""
      match jsNumber timestampStr with
      | none => bumpSkipped s1
      | some ts =>
        if type = "DMG" ∨ type = "DOT" ∨ type = "HEAL" ∨ type = "ENERGIZE" then
          parseNumericEvent ts type parts s1
        else if type = "BUFF" ∨ type = "DEBUFF" then
          parseEffectEvent ts type parts s1
        else
          bumpSkipped s1

/-- The per-line loop of the file handler (parser.js lines 876-878). -/
def parseLines (lines : List String) (s : ParserState) : ParserState :=
  lines.foldl (fun st l => parseLine l st) s

/-- The reset state installed by the parse-button handler (parser.js lines
850-862) before a new log is ingested. -/
def initState : ParserState :=
  { entities := []
    stats := { totalLines := 0, parsedLines := 0, skippedLines := 0
               byType := { DMG := 0, DOT := 0, HEAL := 0, ENERGIZE := 0
                           BUFF := 0, DEBUFF := 0 } }
    bounds := { min := none, max := none }
    filter := { enabled := false, start := none, «end» := none } }

/-- Full ingestion of one log text from the reset state: split into lines
on `\r?\n` and feed each line to `parseLine`. -/
def ingest (text : String) : ParserState :=
  parseLines (splitLogLines text) initState

-- --- Aggregation for current time frame (parser.js lines 369-415) ----------

/-- Embeds `isInCurrentTimeFrame` (parser.js lines 371-374).  When the filter is
disabled every timestamp passes; otherwise
`timestamp >= timeFilter.start && timestamp <= timeFilter.end`.  A `null`
bound coerces to `0` in a JavaScript relational comparison, hence `getD 0`
(every code path that enables the filter also sets both bounds). -/
def isInCurrentTimeFrame (f : TimeFilter) (timestamp : Int) : Bool :=
  if f.enabled = false then true
  else decide (f.start.getD 0 ≤ timestamp) && decide (timestamp ≤ f.«end».getD 0)

/-- One row of `buildAggregatedEntitiesForCurrentTimeFrame`'s result. -/
structure AggRow where
  name : String
  damageDone : Int
  healingDone : Int
  damageReceived : Int
deriving DecidableEq, Repr

/-- The loop body of `buildAggregatedEntitiesForCurrentTimeFrame`
(parser.js lines 383-411): windowed sums of the three amount histories of
one entity. -/
def aggregateEntity (f : TimeFilter) (entity : Entity) : AggRow :=
  { name := entity.name
    damageDone := entity.damageEvents.foldl
      (fun acc e => if isInCurrentTimeFrame f e.timestamp then acc + e.amount else acc) 0
    healingDone := entity.healEvents.foldl
      (fun acc e => if isInCurrentTimeFrame f e.timestamp then acc + e.amount else acc) 0
    damageReceived := entity.damageTakenEvents.foldl
      (fun acc e => if isInCurrentTimeFrame f e.timestamp then acc + e.amount else acc) 0 }

/-- Embeds `buildAggregatedEntitiesForCurrentTimeFrame` (parser.js lines 380-415). -/
def buildAggregatedEntitiesForCurrentTimeFrame (f : TimeFilter) (es : List Entity) :
    List AggRow :=
  es.map (aggregateEntity f)

-- --- Rendering essence (parser.js lines 419-512) ---------------------------

/-- The `[...aggregated].sort((a, b) => b[valueField] - a[valueField])`
step of `renderTables`: a stable descending sort by the ranked metric. -/
def sortRowsDesc (v : AggRow → Int) (rows : List AggRow) : List AggRow :=
  rows.mergeSort fun a b => decide (v b ≤ v a)

/-- The row filter of `renderEntityTable` (parser.js lines 460-463):
`typeof v === "number" && v > 0`.  In the typed embedding every metric
value is a number, so the `typeof` conjunct is identically true. -/
def tableFilteredRows (rows : List AggRow) (v : AggRow → Int) : List AggRow :=
  rows.filter fun row => decide (0 < v row)

/-- The total of `renderEntityTable` (parser.js line 470):
`filteredRows.reduce((sum, row) => sum + row[valueField], 0)`. -/
def tableTotal (rows : List AggRow) (v : AggRow → Int) : Int :=
  rows.foldl (fun sum row => sum + v row) 0

/-- The percentage of one rendered row (parser.js line 502):
`total > 0 ? (amount / total) * 100 : 0`, in exact rational arithmetic. -/
def rowPercent (total amount : Int) : Rat :=
  if 0 < total then (amount : Rat) / (total : Rat) * 100 else 0

/-- The ranking list a summary table displays for metric `v`: the windowed
aggregate rows, sorted descending, with non-positive rows dropped. -/
def rankingRows (f : TimeFilter) (es : List Entity) (v : AggRow → Int) : List AggRow :=
  tableFilteredRows (sortRowsDesc v (buildAggregatedEntitiesForCurrentTimeFrame f es)) v

-- --- Time filter mutation (parser.js lines 593-651) ------------------------

/-- Embeds `applyTimeFilterFromInputs` (parser.js lines 593-628), with the two
date inputs already converted by `localInputToEpoch` (`none` models NaN).
Rejected inputs (NaN, out of the observed bounds, or inverted) alert and
return leaving all state unchanged; accepted inputs enable the filter on
`[startEpoch, endEpoch]`.  A `null` bound coerces to `0` in the JavaScript
comparisons, hence `getD 0`. -/
def applyTimeFilterFromInputs (startEpoch endEpoch : Option Int) (s : ParserState) :
    ParserState :=
  match startEpoch, endEpoch with
  | some st, some en =>
    let mn := s.bounds.min.getD 0
    let mx := s.bounds.max.getD 0
    if st < mn ∨ st > mx ∨ en < mn ∨ en > mx then s
    else if st > en then s
    else { s with filter := { enabled := true, start := some st, «end» := some en } }
  | _, _ => s

/-- Embeds `resetTimeFilterToFullRange` (parser.js lines 631-651): disable the
filter and reset its bounds to the observed range. -/
def resetTimeFilterToFullRange (s : ParserState) : ParserState :=
  { s with filter := { enabled := false, start := s.bounds.min, «end» := s.bounds.max } }

-- --- Derived predicates ----------------------------------------------------

/-- Per-entity bookkeeping invariant: each running total equals the sum of
the matching stored event history, and every stored amount is
non-negative. -/
def entityInv (e : Entity) : Prop :=
  e.damageDone = (e.damageEvents.map DoneEvent.amount).sum ∧
  e.healingDone = (e.healEvents.map DoneEvent.amount).sum ∧
  e.damageReceived = (e.damageTakenEvents.map TakenEvent.amount).sum ∧
  (∀ ev ∈ e.damageEvents, 0 ≤ ev.amount) ∧
  (∀ ev ∈ e.healEvents, 0 ≤ ev.amount) ∧
  (∀ ev ∈ e.damageTakenEvents, 0 ≤ ev.amount)

/-- Whole-state invariant maintained by ingestion: every entity satisfies
`entityInv` and the line counters balance. -/
def stateInv (s : ParserState) : Prop :=
  (∀ e ∈ s.entities, entityInv e) ∧
  s.stats.totalLines = s.stats.parsedLines + s.stats.skippedLines

/-- The malformed-line conditions of the error-handling contract: fewer
than two fields, a non-numeric timestamp field, an unknown kind tag, or a
known kind tag with an insufficient field count for its record shape. -/
def malformedLine (line : String) : Bool :=
  let parts := (jsSplit ',' (jsTrim line)).map jsTrim
  let tag := parts.getD 1 ""
  decide (parts.length < 2) ||
  (jsNumber (parts.getD 0 "")).isNone ||
  !(tag == "DMG" || tag == "DOT" || tag == "HEAL" || tag == "ENERGIZE" ||
    tag == "BUFF" || tag == "DEBUFF") ||
  ((tag == "DMG" || tag == "DOT" || tag == "HEAL" || tag == "ENERGIZE") &&
    decide (parts.length < 8)) ||
  ((tag == "BUFF" || tag == "DEBUFF") && decide (parts.length < 6))

-- --- Generic list lemmas ---------------------------------------------------

/-- A conditional accumulating fold is the sum of the filtered, mapped
list. -/
theorem foldl_if_sum {α : Type} (p : α → Bool) (amt : α → Int) (l : List α) (acc : Int) :
    l.foldl (fun a x => if p x then a + amt x else a) acc
      = acc + ((l.filter p).map amt).sum := by
  induction l generalizing acc with
  | nil => simp
  | cons x l ih =>
    by_cases hp : p x
    · simp [hp, ih, add_assoc]
    · simp [hp, ih]

/-- A plain accumulating fold is the sum of the mapped list. -/
theorem foldl_add_sum {α : Type} (amt : α → Int) (l : List α) (acc : Int) :
    l.foldl (fun a x => a + amt x) acc = acc + (l.map amt).sum := by
  induction l generalizing acc with
  | nil => simp
  | cons x l ih => simp [ih, add_assoc]

/-- Summing over a stronger filter never exceeds summing over a weaker one
when all summands are non-negative. -/
theorem sum_filter_le_sum_filter {α : Type} (l : List α) (amt : α → Int) (p q : α → Bool)
    (hpq : ∀ x ∈ l, p x = true → q x = true) (hnn : ∀ x ∈ l, 0 ≤ amt x) :
    ((l.filter p).map amt).sum ≤ ((l.filter q).map amt).sum := by
  induction l with
  | nil => simp
  | cons x l ih =>
    have ih' := ih (fun y hy => hpq y (List.mem_cons_of_mem _ hy))
      (fun y hy => hnn y (List.mem_cons_of_mem _ hy))
    by_cases hp : p x
    · have hq := hpq x (List.mem_cons_self _ _) hp
      simpa [hp, hq] using ih'
    · by_cases hq : q x
      · have hx : 0 ≤ amt x := hnn x (List.mem_cons_self _ _)
        simp only [List.filter_cons, hp, hq]
        simp only [Bool.false_eq_true, if_false, if_pos, List.map_cons, List.sum_cons]
        omega
      · simpa [hp, hq] using ih'

/-- Dropping the non-positive entries of a non-negative list does not
change its sum. -/
theorem sum_filter_pos_eq {α : Type} (l : List α) (amt : α → Int)
    (hnn : ∀ x ∈ l, 0 ≤ amt x) :
    ((l.filter fun x => decide (0 < amt x)).map amt).sum = (l.map amt).sum := by
  induction l with
  | nil => simp
  | cons x l ih =>
    have ih' := ih fun y hy => hnn y (List.mem_cons_of_mem _ hy)
    by_cases hx : 0 < amt x
    · simp [hx, ih']
    · have h0 : amt x = 0 := le_antisymm (not_lt.mp hx) (hnn x (List.mem_cons_self _ _))
      simp [hx, ih', h0]

-- --- Entity registry lemmas ------------------------------------------------

/-- Lookup after `getEntity`: looking up the registered name yields
the previously stored entity or a fresh one; other names are untouched. -/
theorem findEntity_getEntity (es : List Entity) (n m : String) :
    findEntity (getEntity es n) m
      = if m = n then some ((findEntity es n).getD (freshEntity n))
        else findEntity es m := by
  unfold getEntity
  cases hfind : findEntity es n with
  | some e =>
    simp only [hfind, Option.isSome_some, if_true]
    by_cases hmn : m = n
    · subst hmn; simp [hfind]
    · simp [hmn]
  | none =>
    simp only [hfind, Option.isSome_none, Bool.false_eq_true, if_false]
    simp only [findEntity] at hfind ⊢
    by_cases hmn : m = n
    · subst hmn
      simp [List.find?_append, hfind, freshEntity]
    · simp only [List.find?_append, hmn, if_false]
      have h1 : List.find? (fun e => decide (e.name = m)) [freshEntity n] = none := by
        simp [freshEntity, Ne.symm hmn]
      rw [h1]
      cases List.find? (fun e => decide (e.name = m)) es <;> rfl

/-- Lookup after `modifyEntity` for a name-preserving update. -/
theorem findEntity_modifyEntity (es : List Entity) (n m : String) (f : Entity → Entity)
    (hf : ∀ e, (f e).name = e.name) :
    findEntity (modifyEntity es n f) m
      = (findEntity es m).map fun e => if e.name = n then f e else e := by
  induction es with
  | nil => rfl
  | cons e es ih =>
    rw [show modifyEntity (e :: es) n f
          = (if e.name = n then f e else e) :: modifyEntity es n f from rfl]
    by_cases hen : e.name = n
    · rw [if_pos hen]
      by_cases hem : e.name = m
      · have hnm : n = m := by rw [← hen]; exact hem
        subst hnm
        have h1 : (f e).name = n := by rw [hf e]; exact hem
        rw [show findEntity (f e :: modifyEntity es n f) n = some (f e) from by
          simp [findEntity, List.find?_cons, h1]]
        simp [findEntity, List.find?_cons, hem]
      · have h1 : ¬(f e).name = m := by rw [hf e]; exact hem
        rw [show findEntity (f e :: modifyEntity es n f) m
              = findEntity (modifyEntity es n f) m from by
          simp [findEntity, List.find?_cons, h1]]
        rw [show findEntity (e :: es) m = findEntity es m from by
          simp [findEntity, List.find?_cons, hem]]
        exact ih
    · rw [if_neg hen]
      by_cases hem : e.name = m
      · rw [show findEntity (e :: modifyEntity es n f) m = some e from by
          simp [findEntity, List.find?_cons, hem]]
        rw [show findEntity (e :: es) m = some e from by
          simp [findEntity, List.find?_cons, hem]]
        simp [hen]
      · rw [show findEntity (e :: modifyEntity es n f) m
              = findEntity (modifyEntity es n f) m from by
          simp [findEntity, List.find?_cons, hem]]
        rw [show findEntity (e :: es) m = findEntity es m from by
          simp [findEntity, List.find?_cons, hem]]
        exact ih

/-- Every entity after `getEntity` either was present before or is the
fresh record. -/
theorem forall_mem_getEntity (P : Entity → Prop) (es : List Entity) (n : String)
    (h : ∀ e ∈ es, P e) (hfresh : P (freshEntity n)) :
    ∀ e ∈ getEntity es n, P e := by
  unfold getEntity
  split
  · exact h
  · intro e he
    rcases List.mem_append.mp he with h1 | h1
    · exact h e h1
    · rcases List.mem_singleton.mp h1 with rfl
      exact hfresh

/-- Every entity after `modifyEntity` is an old entity or an updated old
entity. -/
theorem forall_mem_modifyEntity (P : Entity → Prop) (es : List Entity) (n : String)
    (f : Entity → Entity) (h : ∀ e ∈ es, P e) (hstep : ∀ e, P e → P (f e)) :
    ∀ e ∈ modifyEntity es n f, P e := by
  intro e he
  obtain ⟨x, hx, hxe⟩ := List.mem_map.mp he
  by_cases hxn : x.name = n
  · rw [if_pos hxn] at hxe
    exact hxe ▸ hstep x (h x hx)
  · rw [if_neg hxn] at hxe
    exact hxe ▸ h x hx

-- --- Ingestion invariants --------------------------------------------------

theorem entityInv_fresh (n : String) : entityInv (freshEntity n) := by
  simp [entityInv, freshEntity]

theorem entityInv_addDamage (e : Entity) (ev : DoneEvent) (h : entityInv e)
    (hamt : 0 ≤ ev.amount) :
    entityInv { e with damageDone := e.damageDone + ev.amount
                       damageEvents := e.damageEvents ++ [ev] } := by
  obtain ⟨h1, h2, h3, h4, h5, h6⟩ := h
  refine ⟨?_, h2, h3, ?_, h5, h6⟩
  · simp [h1]
  · intro x hx
    rcases List.mem_append.mp hx with hx | hx
    · exact h4 x hx
    · rcases List.mem_singleton.mp hx with rfl; exact hamt

theorem entityInv_addHeal (e : Entity) (ev : DoneEvent) (h : entityInv e)
    (hamt : 0 ≤ ev.amount) :
    entityInv { e with healingDone := e.healingDone + ev.amount
                       healEvents := e.healEvents ++ [ev] } := by
  obtain ⟨h1, h2, h3, h4, h5, h6⟩ := h
  refine ⟨h1, ?_, h3, h4, ?_, h6⟩
  · simp [h2]
  · intro x hx
    rcases List.mem_append.mp hx with hx | hx
    · exact h5 x hx
    · rcases List.mem_singleton.mp hx with rfl; exact hamt

theorem entityInv_addTaken (e : Entity) (ev : TakenEvent) (h : entityInv e)
    (hamt : 0 ≤ ev.amount) :
    entityInv { e with damageReceived := e.damageReceived + ev.amount
                       damageTakenEvents := e.damageTakenEvents ++ [ev] } := by
  obtain ⟨h1, h2, h3, h4, h5, h6⟩ := h
  refine ⟨h1, h2, ?_, h4, h5, ?_⟩
  · simp [h3]
  · intro x hx
    rcases List.mem_append.mp hx with hx | hx
    · exact h6 x hx
    · rcases List.mem_singleton.mp hx with rfl; exact hamt

theorem entityInv_addBuffApplied (e : Entity) (ev : EffectEvent) (h : entityInv e) :
    entityInv { e with buffsApplied := e.buffsApplied ++ [ev] } := h

theorem entityInv_addBuffReceived (e : Entity) (ev : EffectEvent) (h : entityInv e) :
    entityInv { e with buffsReceived := e.buffsReceived ++ [ev] } := h

theorem entityInv_addDebuffApplied (e : Entity) (ev : EffectEvent) (h : entityInv e) :
    entityInv { e with debuffsApplied := e.debuffsApplied ++ [ev] } := h

theorem entityInv_addDebuffReceived (e : Entity) (ev : EffectEvent) (h : entityInv e) :
    entityInv { e with debuffsReceived := e.debuffsReceived ++ [ev] } := h

/-- The sign-normalized damage amount is non-negative. -/
theorem dmgAmount_nonneg (a : Int) : 0 ≤ if a < 0 then -a else a := by
  split <;> omega

/-- The function `parseNumericEvent` preserves the per-entity invariant. -/
theorem entitiesInv_parseNumericEvent (ts : Int) (ty : String) (parts : List String)
    (s : ParserState) (h : ∀ e ∈ s.entities, entityInv e) :
    ∀ e ∈ (parseNumericEvent ts ty parts s).entities, entityInv e := by
  have hbase : ∀ e ∈ getEntity (getEntity s.entities (parts.getD 2 ""))
      (parts.getD 3 ""), entityInv e :=
    forall_mem_getEntity _ _ _
      (forall_mem_getEntity _ _ _ h (entityInv_fresh _)) (entityInv_fresh _)
  simp only [parseNumericEvent]
  by_cases h8 : parts.length < 8
  · rw [if_pos h8]; exact h
  · rw [if_neg h8]
    cases hj : jsNumber (parts.getD 5 "") with
    | none => exact h
    | some a =>
      dsimp only
      by_cases hd : ty = "DMG" ∨ ty = "DOT"
      · rw [if_pos hd]
        dsimp only
        refine forall_mem_modifyEntity _ _ _ _
          (forall_mem_modifyEntity _ _ _ _ hbase ?_) ?_
        · intro e he
          exact entityInv_addDamage e
            ⟨ts, ty, parts.getD 3 "", parts.getD 4 "", if a < 0 then -a else a,
              parts.getD 6 "", parts.getD 7 ""⟩ he (dmgAmount_nonneg a)
        · intro e he
          exact entityInv_addTaken e
            ⟨ts, ty, parts.getD 2 "", parts.getD 4 "", if a < 0 then -a else a,
              parts.getD 6 "", parts.getD 7 ""⟩ he (dmgAmount_nonneg a)
      · rw [if_neg hd]
        by_cases hh : ty = "HEAL"
        · rw [if_pos hh]
          dsimp only
          refine forall_mem_modifyEntity _ _ _ _ hbase ?_
          intro e he
          exact entityInv_addHeal e
            ⟨ts, ty, parts.getD 3 "", parts.getD 4 "", |a|,
              parts.getD 6 "", parts.getD 7 ""⟩ he (abs_nonneg a)
        · rw [if_neg hh]
          exact hbase

/-- The function `parseEffectEvent` preserves the per-entity invariant. -/
theorem entitiesInv_parseEffectEvent (ts : Int) (ty : String) (parts : List String)
    (s : ParserState) (h : ∀ e ∈ s.entities, entityInv e) :
    ∀ e ∈ (parseEffectEvent ts ty parts s).entities, entityInv e := by
  have hbase : ∀ e ∈ getEntity (getEntity s.entities (parts.getD 2 ""))
      (parts.getD 3 ""), entityInv e :=
    forall_mem_getEntity _ _ _
      (forall_mem_getEntity _ _ _ h (entityInv_fresh _)) (entityInv_fresh _)
  simp only [parseEffectEvent]
  by_cases h6 : parts.length < 6
  · rw [if_pos h6]; exact h
  · rw [if_neg h6]
    by_cases hb : ty = "BUFF"
    · rw [if_pos hb]
      dsimp only
      refine forall_mem_modifyEntity _ _ _ _
        (forall_mem_modifyEntity _ _ _ _ hbase ?_) ?_
      · intro e he; exact entityInv_addBuffApplied e _ he
      · intro e he; exact entityInv_addBuffReceived e _ he
    · rw [if_neg hb]
      dsimp only
      refine forall_mem_modifyEntity _ _ _ _
        (forall_mem_modifyEntity _ _ _ _ hbase ?_) ?_
      · intro e he; exact entityInv_addDebuffApplied e _ he
      · intro e he; exact entityInv_addDebuffReceived e _ he

/-- The function `parseLine` preserves the per-entity invariant. -/
theorem entitiesInv_parseLine (line : String) (s : ParserState)
    (h : ∀ e ∈ s.entities, entityInv e) :
    ∀ e ∈ (parseLine line s).entities, entityInv e := by
  simp only [parseLine]
  by_cases hb : jsTrim line = ""
  · rw [if_pos hb]; exact h
  · rw [if_neg hb]
    by_cases h2 : (List.map jsTrim (jsSplit ',' (jsTrim line))).length < 2
    · rw [if_pos h2]; exact h
    · rw [if_neg h2]
      cases hj : jsNumber ((List.map jsTrim (jsSplit ',' (jsTrim line))).getD 0 "") with
      | none => exact h
      | some ts =>
        dsimp only
        by_cases hn : (List.map jsTrim (jsSplit ',' (jsTrim line))).getD 1 "" = "DMG" ∨
            (List.map jsTrim (jsSplit ',' (jsTrim line))).getD 1 "" = "DOT" ∨
            (List.map jsTrim (jsSplit ',' (jsTrim line))).getD 1 "" = "HEAL" ∨
            (List.map jsTrim (jsSplit ',' (jsTrim line))).getD 1 "" = "ENERGIZE"
        · rw [if_pos hn]
          exact entitiesInv_parseNumericEvent _ _ _ _ h
        · rw [if_neg hn]
          by_cases he : (List.map jsTrim (jsSplit ',' (jsTrim line))).getD 1 "" = "BUFF" ∨
              (List.map jsTrim (jsSplit ',' (jsTrim line))).getD 1 "" = "DEBUFF"
          · rw [if_pos he]
            exact entitiesInv_parseEffectEvent _ _ _ _ h
          · rw [if_neg he]; exact h

-- --- Counter behaviour -----------------------------------------------------

/-- The function `parseNumericEvent` never touches `totalLines` and bumps exactly one of
`parsedLines` / `skippedLines`. -/
theorem counters_parseNumericEvent (ts : Int) (ty : String) (parts : List String)
    (s : ParserState) :
    (parseNumericEvent ts ty parts s).stats.totalLines = s.stats.totalLines ∧
    (((parseNumericEvent ts ty parts s).stats.parsedLines = s.stats.parsedLines + 1 ∧
      (parseNumericEvent ts ty parts s).stats.skippedLines = s.stats.skippedLines) ∨
     ((parseNumericEvent ts ty parts s).stats.parsedLines = s.stats.parsedLines ∧
      (parseNumericEvent ts ty parts s).stats.skippedLines = s.stats.skippedLines + 1)) := by
  simp only [parseNumericEvent]
  by_cases h8 : parts.length < 8
  · rw [if_pos h8]; exact ⟨rfl, Or.inr ⟨rfl, rfl⟩⟩
  · rw [if_neg h8]
    cases hj : jsNumber (parts.getD 5 "") with
    | none => exact ⟨rfl, Or.inr ⟨rfl, rfl⟩⟩
    | some a =>
      dsimp only
      by_cases hd : ty = "DMG" ∨ ty = "DOT"
      · rw [if_pos hd]; exact ⟨rfl, Or.inl ⟨rfl, rfl⟩⟩
      · rw [if_neg hd]
        by_cases hh : ty = "HEAL"
        · rw [if_pos hh]; exact ⟨rfl, Or.inl ⟨rfl, rfl⟩⟩
        · rw [if_neg hh]; exact ⟨rfl, Or.inl ⟨rfl, rfl⟩⟩

/-- The function `parseEffectEvent` never touches `totalLines` and bumps exactly one of
`parsedLines` / `skippedLines`. -/
theorem counters_parseEffectEvent (ts : Int) (ty : String) (parts : List String)
    (s : ParserState) :
    (parseEffectEvent ts ty parts s).stats.totalLines = s.stats.totalLines ∧
    (((parseEffectEvent ts ty parts s).stats.parsedLines = s.stats.parsedLines + 1 ∧
      (parseEffectEvent ts ty parts s).stats.skippedLines = s.stats.skippedLines) ∨
     ((parseEffectEvent ts ty parts s).stats.parsedLines = s.stats.parsedLines ∧
      (parseEffectEvent ts ty parts s).stats.skippedLines = s.stats.skippedLines + 1)) := by
  simp only [parseEffectEvent]
  by_cases h6 : parts.length < 6
  · rw [if_pos h6]; exact ⟨rfl, Or.inr ⟨rfl, rfl⟩⟩
  · rw [if_neg h6]
    by_cases hb : ty = "BUFF"
    · rw [if_pos hb]; exact ⟨rfl, Or.inl ⟨rfl, rfl⟩⟩
    · rw [if_neg hb]; exact ⟨rfl, Or.inl ⟨rfl, rfl⟩⟩

/-- A blank (all-whitespace) line leaves the state untouched. -/
theorem parseLine_blank (line : String) (s : ParserState) (h : jsTrim line = "") :
    parseLine line s = s := by
  simp only [parseLine]
  rw [if_pos h]

/-- A non-blank line bumps `totalLines` by one and exactly one of
`parsedLines` / `skippedLines` by one. -/
theorem parseLine_counters (line : String) (s : ParserState) (h : jsTrim line ≠ "") :
    (parseLine line s).stats.totalLines = s.stats.totalLines + 1 ∧
    (((parseLine line s).stats.parsedLines = s.stats.parsedLines + 1 ∧
      (parseLine line s).stats.skippedLines = s.stats.skippedLines) ∨
     ((parseLine line s).stats.parsedLines = s.stats.parsedLines ∧
      (parseLine line s).stats.skippedLines = s.stats.skippedLines + 1)) := by
  simp only [parseLine]
  rw [if_neg h]
  by_cases h2 : (List.map jsTrim (jsSplit ',' (jsTrim line))).length < 2
  · rw [if_pos h2]; exact ⟨rfl, Or.inr ⟨rfl, rfl⟩⟩
  · rw [if_neg h2]
    cases hj : jsNumber ((List.map jsTrim (jsSplit ',' (jsTrim line))).getD 0 "") with
    | none => exact ⟨rfl, Or.inr ⟨rfl, rfl⟩⟩
    | some ts =>
      dsimp only
      by_cases hn : (List.map jsTrim (jsSplit ',' (jsTrim line))).getD 1 "" = "DMG" ∨
          (List.map jsTrim (jsSplit ',' (jsTrim line))).getD 1 "" = "DOT" ∨
          (List.map jsTrim (jsSplit ',' (jsTrim line))).getD 1 "" = "HEAL" ∨
          (List.map jsTrim (jsSplit ',' (jsTrim line))).getD 1 "" = "ENERGIZE"
      · rw [if_pos hn]
        exact counters_parseNumericEvent _ _ _ _
      · rw [if_neg hn]
        by_cases he : (List.map jsTrim (jsSplit ',' (jsTrim line))).getD 1 "" = "BUFF" ∨
            (List.map jsTrim (jsSplit ',' (jsTrim line))).getD 1 "" = "DEBUFF"
        · rw [if_pos he]
          exact counters_parseEffectEvent _ _ _ _
        · rw [if_neg he]; exact ⟨rfl, Or.inr ⟨rfl, rfl⟩⟩

/-- The function `parseLine` preserves the whole-state invariant. -/
theorem stateInv_parseLine (line : String) (s : ParserState) (h : stateInv s) :
    stateInv (parseLine line s) := by
  obtain ⟨hE, hC⟩ := h
  refine ⟨entitiesInv_parseLine line s hE, ?_⟩
  by_cases hb : jsTrim line = ""
  · rw [parseLine_blank line s hb]; exact hC
  · obtain ⟨h1, h2⟩ := parseLine_counters line s hb
    rcases h2 with ⟨hp, hs⟩ | ⟨hp, hs⟩ <;> omega

/-- The function `parseLines` preserves the whole-state invariant. -/
theorem stateInv_parseLines (ls : List String) (s : ParserState) (h : stateInv s) :
    stateInv (parseLines ls s) := by
  induction ls generalizing s with
  | nil => exact h
  | cons l ls ih => exact ih (parseLine l s) (stateInv_parseLine l s h)

/-- The reset state satisfies the invariant. -/
theorem stateInv_initState : stateInv initState := by
  refine ⟨?_, rfl⟩
  intro e he
  simp [initState] at he

-- --- Independence of parsing from the time filter --------------------------

/-- The function `parseNumericEvent` neither reads nor writes the time filter. -/
theorem parseNumericEvent_filter (ts : Int) (ty : String) (parts : List String)
    (s : ParserState) (f : TimeFilter) :
    parseNumericEvent ts ty parts { s with filter := f }
      = { parseNumericEvent ts ty parts s with filter := f } := by
  simp only [parseNumericEvent]
  by_cases h8 : parts.length < 8
  · rw [if_pos h8, if_pos h8]
    all_goals rfl
  · rw [if_neg h8, if_neg h8]
    cases hj : jsNumber (parts.getD 5 "") with
    | none => rfl
    | some a =>
      dsimp only
      by_cases hd : ty = "DMG" ∨ ty = "DOT"
      · rw [if_pos hd, if_pos hd]
      · rw [if_neg hd, if_neg hd]
        by_cases hh : ty = "HEAL"
        · rw [if_pos hh, if_pos hh]
        · rw [if_neg hh, if_neg hh]

/-- The function `parseEffectEvent` neither reads nor writes the time filter. -/
theorem parseEffectEvent_filter (ts : Int) (ty : String) (parts : List String)
    (s : ParserState) (f : TimeFilter) :
    parseEffectEvent ts ty parts { s with filter := f }
      = { parseEffectEvent ts ty parts s with filter := f } := by
  simp only [parseEffectEvent]
  by_cases h6 : parts.length < 6
  · rw [if_pos h6, if_pos h6]
    all_goals rfl
  · rw [if_neg h6, if_neg h6]
    by_cases hb : ty = "BUFF"
    · rw [if_pos hb, if_pos hb]
    · rw [if_neg hb, if_neg hb]

/-- The function `parseLine` neither reads nor writes the time filter. -/
theorem parseLine_filter (line : String) (s : ParserState) (f : TimeFilter) :
    parseLine line { s with filter := f } = { parseLine line s with filter := f } := by
  simp only [parseLine]
  by_cases hb : jsTrim line = ""
  · rw [if_pos hb, if_pos hb]
  · rw [if_neg hb, if_neg hb]
    by_cases h2 : (List.map jsTrim (jsSplit ',' (jsTrim line))).length < 2
    · rw [if_pos h2, if_pos h2]
      all_goals rfl
    · rw [if_neg h2, if_neg h2]
      cases hj : jsNumber ((List.map jsTrim (jsSplit ',' (jsTrim line))).getD 0 "") with
      | none => rfl
      | some ts =>
        dsimp only
        by_cases hn : (List.map jsTrim (jsSplit ',' (jsTrim line))).getD 1 "" = "DMG" ∨
            (List.map jsTrim (jsSplit ',' (jsTrim line))).getD 1 "" = "DOT" ∨
            (List.map jsTrim (jsSplit ',' (jsTrim line))).getD 1 "" = "HEAL" ∨
            (List.map jsTrim (jsSplit ',' (jsTrim line))).getD 1 "" = "ENERGIZE"
        · rw [if_pos hn, if_pos hn]
          exact parseNumericEvent_filter ts
            ((List.map jsTrim (jsSplit ',' (jsTrim line))).getD 1 "")
            (List.map jsTrim (jsSplit ',' (jsTrim line)))
            { s with stats := { s.stats with totalLines := s.stats.totalLines + 1 } } f
        · rw [if_neg hn, if_neg hn]
          by_cases he : (List.map jsTrim (jsSplit ',' (jsTrim line))).getD 1 "" = "BUFF" ∨
              (List.map jsTrim (jsSplit ',' (jsTrim line))).getD 1 "" = "DEBUFF"
          · rw [if_pos he, if_pos he]
            exact parseEffectEvent_filter ts
              ((List.map jsTrim (jsSplit ',' (jsTrim line))).getD 1 "")
              (List.map jsTrim (jsSplit ',' (jsTrim line)))
              { s with stats := { s.stats with totalLines := s.stats.totalLines + 1 } } f
          · rw [if_neg he, if_neg he]
            all_goals rfl

/-- The function `parseLines` neither reads nor writes the time filter. -/
theorem parseLines_filter (ls : List String) (s : ParserState) (f : TimeFilter) :
    parseLines ls { s with filter := f } = { parseLines ls s with filter := f } := by
  induction ls generalizing s with
  | nil => rfl
  | cons l ls ih =>
    show parseLines ls (parseLine l { s with filter := f })
      = { parseLines ls (parseLine l s) with filter := f }
    rw [parseLine_filter]
    exact ih (parseLine l s)

-- --- Claim C2 --------------------------------------------------------------

/-- Claim C2: for every timestamp `t`, `isInCurrentTimeFrame` returns true
when the filter is disabled, and when the filter is enabled on bounds
`[lo, hi]` it returns true if and only if `lo ≤ t` and `t ≤ hi` (both
bounds inclusive). -/
theorem isInCurrentTimeFrame_spec (f : TimeFilter) (t lo hi : Int)
    (hlo : f.start = some lo) (hhi : f.«end» = some hi) :
    isInCurrentTimeFrame f t = true ↔ (f.enabled = false ∨ (lo ≤ t ∧ t ≤ hi)) := by
  unfold isInCurrentTimeFrame
  by_cases he : f.enabled = false
  · simp [he]
  · simp [he, hlo, hhi]

theorem isInCurrentTimeFrame_spec_witness :
    isInCurrentTimeFrame { enabled := true, start := some 0, «end» := some 10 } 5 = true ∧
    isInCurrentTimeFrame { enabled := true, start := some 0, «end» := some 10 } 11 ≠ true := by
  constructor
  · exact (isInCurrentTimeFrame_spec
      { enabled := true, start := some 0, «end» := some 10 } 5 0 10 rfl rfl).mpr
      (Or.inr (by decide))
  · intro hcon
    rcases (isInCurrentTimeFrame_spec
        { enabled := true, start := some 0, «end» := some 10 } 11 0 10 rfl rfl).mp hcon with
      h | h
    · cases h
    · omega

-- --- Claim C5 --------------------------------------------------------------

/-- Claim C5: an explicit window `(st, en)` is rejected (leaving the whole
state, in particular the filter, unchanged) whenever either value lies
outside the observed `[mn, mx]` bounds or `st > en`; a request with both
values in bounds and `st ≤ en` is accepted and enables the filter on
exactly that range. -/
theorem applyTimeFilter_spec (s : ParserState) (st en mn mx : Int)
    (hmn : s.bounds.min = some mn) (hmx : s.bounds.max = some mx) :
    ((st < mn ∨ st > mx ∨ en < mn ∨ en > mx ∨ st > en) →
      applyTimeFilterFromInputs (some st) (some en) s = s) ∧
    (mn ≤ st → st ≤ mx → mn ≤ en → en ≤ mx → st ≤ en →
      applyTimeFilterFromInputs (some st) (some en) s
        = { s with filter := { enabled := true, start := some st, «end» := some en } }) := by
  constructor
  · intro h
    simp only [applyTimeFilterFromInputs, hmn, hmx, Option.getD_some]
    by_cases h4 : st < mn ∨ st > mx ∨ en < mn ∨ en > mx
    · rw [if_pos h4]
    · rw [if_neg h4]
      have h5 : st > en := by
        rcases h with h | h | h | h | h
        · exact absurd (Or.inl h) h4
        · exact absurd (Or.inr (Or.inl h)) h4
        · exact absurd (Or.inr (Or.inr (Or.inl h))) h4
        · exact absurd (Or.inr (Or.inr (Or.inr h))) h4
        · exact h
      rw [if_pos h5]
  · intro h1 h2 h3 h4 h5
    simp only [applyTimeFilterFromInputs, hmn, hmx, Option.getD_some]
    rw [if_neg (by omega), if_neg (by omega)]

theorem applyTimeFilter_spec_witness :
    applyTimeFilterFromInputs (some 500) (some 100)
        { initState with bounds := { min := some 0, max := some 1000 } }
      = { initState with bounds := { min := some 0, max := some 1000 } } ∧
    applyTimeFilterFromInputs (some 100) (some 500)
        { initState with bounds := { min := some 0, max := some 1000 } }
      = { initState with bounds := { min := some 0, max := some 1000 }
                         filter := { enabled := true, start := some 100, «end» := some 500 } } := by
  constructor
  · exact (applyTimeFilter_spec _ 500 100 0 1000 rfl rfl).1
      (Or.inr (Or.inr (Or.inr (Or.inr (by decide)))))
  · exact (applyTimeFilter_spec _ 100 500 0 1000 rfl rfl).2
      (by decide) (by decide) (by decide) (by decide) (by decide)

-- --- Claim C9 --------------------------------------------------------------

/-- Claim C9: after ingesting any input text from the reset state,
`totalLines = parsedLines + skippedLines`; every non-blank line increments
`totalLines` by exactly one and exactly one of `parsedLines` /
`skippedLines` by exactly one, and blank (all-whitespace) lines change
nothing at all. -/
theorem counters_balance (text line : String) (s : ParserState) :
    ((ingest text).stats.totalLines
      = (ingest text).stats.parsedLines + (ingest text).stats.skippedLines) ∧
    (jsTrim line = "" → parseLine line s = s) ∧
    (jsTrim line ≠ "" →
      (parseLine line s).stats.totalLines = s.stats.totalLines + 1 ∧
      (((parseLine line s).stats.parsedLines = s.stats.parsedLines + 1 ∧
        (parseLine line s).stats.skippedLines = s.stats.skippedLines) ∨
       ((parseLine line s).stats.parsedLines = s.stats.parsedLines ∧
        (parseLine line s).stats.skippedLines = s.stats.skippedLines + 1))) :=
  ⟨(stateInv_parseLines (splitLogLines text) initState stateInv_initState).2,
   parseLine_blank line s,
   parseLine_counters line s⟩

theorem counters_balance_witness :
    ((ingest "100,DMG,A,B,S,10,P,H\njunk").stats.totalLines
      = (ingest "100,DMG,A,B,S,10,P,H\njunk").stats.parsedLines
        + (ingest "100,DMG,A,B,S,10,P,H\njunk").stats.skippedLines) ∧
    (parseLine "   " initState = initState) ∧
    (parseLine "junk" initState).stats.totalLines = initState.stats.totalLines + 1 := by
  refine ⟨(counters_balance "100,DMG,A,B,S,10,P,H\njunk" "" initState).1, ?_, ?_⟩
  · exact (counters_balance "" "   " initState).2.1 (by decide)
  · exact ((counters_balance "" "junk" initState).2.2 (by decide)).1

-- --- Claim C10 -------------------------------------------------------------

/-- Claim C10: a line whose timestamp or amount field is empty (or
whitespace-only) is not skipped, because the JavaScript numeric conversion
maps such strings to `0`: `",DMG,A,B,S,10,P,H"` parses as a DMG event at
timestamp `0` (widening the time bounds to include `0`), and
`"5,DMG,A,B,S,,P,H"` parses with amount `0`. -/
theorem empty_field_parses_as_zero :
    (∀ str : String, jsTrim str = "" → jsNumber str = some 0) ∧
    (parseLine ",DMG,A,B,S,10,P,H" initState).stats.parsedLines = 1 ∧
    (parseLine ",DMG,A,B,S,10,P,H" initState).stats.skippedLines = 0 ∧
    (parseLine ",DMG,A,B,S,10,P,H" initState).bounds.min = some 0 ∧
    (parseLine ",DMG,A,B,S,10,P,H" initState).bounds.max = some 0 ∧
    ((findEntity (parseLine ",DMG,A,B,S,10,P,H" initState).entities "A").map
        Entity.damageEvents
      = some [{ timestamp := 0, type := "DMG", target := "B", skill := "S"
                amount := 10, pool := "P", hitType := "H" }]) ∧
    ((findEntity (parseLine "5,DMG,A,B,S,,P,H" initState).entities "A").map
        Entity.damageEvents
      = some [{ timestamp := 5, type := "DMG", target := "B", skill := "S"
                amount := 0, pool := "P", hitType := "H" }]) := by
  refine ⟨?_, by decide, by decide, by decide, by decide, by decide, by decide⟩
  intro str h
  simp [jsNumber, h]

theorem empty_field_parses_as_zero_witness :
    jsNumber "  " = some 0 :=
  empty_field_parses_as_zero.1 "  " (by decide)

-- --- Claim C4 --------------------------------------------------------------

/-- Claim C4: parsing a non-blank malformed line (non-numeric timestamp,
unknown kind tag, or insufficient field count) increments `skippedLines`
and `totalLines` by one, leaves `parsedLines`, every entity and the time
bounds unchanged, and does not abort ingestion of subsequent lines. -/
theorem malformed_line_skipped (line : String) (s : ParserState) (rest : List String)
    (hnb : jsTrim line ≠ "") (hm : malformedLine line = true) :
    parseLine line s
      = { s with stats := { s.stats with totalLines := s.stats.totalLines + 1
                                         skippedLines := s.stats.skippedLines + 1 } } ∧
    parseLines (line :: rest) s = parseLines rest (parseLine line s) := by
  refine ⟨?_, rfl⟩
  simp only [malformedLine, Bool.or_eq_true, Bool.and_eq_true, decide_eq_true_eq,
    Option.isNone_iff_eq_none, Bool.not_eq_true', Bool.or_eq_false_iff,
    beq_iff_eq, beq_eq_false_iff_ne, or_assoc, and_assoc] at hm
  simp only [parseLine]
  rw [if_neg hnb]
  by_cases h2 : (List.map jsTrim (jsSplit ',' (jsTrim line))).length < 2
  · rw [if_pos h2]; rfl
  · rw [if_neg h2]
    cases hj : jsNumber ((List.map jsTrim (jsSplit ',' (jsTrim line))).getD 0 "") with
    | none => rfl
    | some ts =>
      dsimp only
      by_cases hn : (List.map jsTrim (jsSplit ',' (jsTrim line))).getD 1 "" = "DMG" ∨
          (List.map jsTrim (jsSplit ',' (jsTrim line))).getD 1 "" = "DOT" ∨
          (List.map jsTrim (jsSplit ',' (jsTrim line))).getD 1 "" = "HEAL" ∨
          (List.map jsTrim (jsSplit ',' (jsTrim line))).getD 1 "" = "ENERGIZE"
      · rw [if_pos hn]
        have h8 : (List.map jsTrim (jsSplit ',' (jsTrim line))).length < 8 := by
          rcases hm with hm | hm | hm | hm | hm
          · omega
          · rw [hm] at hj; cases hj
          · exfalso
            rcases hn with h | h | h | h <;>
              [exact hm.1 h; exact hm.2.1 h; exact hm.2.2.1 h; exact hm.2.2.2.1 h]
          · exact hm.2
          · exfalso
            rcases hn with h | h | h | h <;> rcases hm.1 with h5 | h5 <;>
              rw [h] at h5 <;> exact absurd h5 (by decide)
        simp only [parseNumericEvent]
        rw [if_pos h8]
        rfl
      · rw [if_neg hn]
        by_cases hef : (List.map jsTrim (jsSplit ',' (jsTrim line))).getD 1 "" = "BUFF" ∨
            (List.map jsTrim (jsSplit ',' (jsTrim line))).getD 1 "" = "DEBUFF"
        · rw [if_pos hef]
          have h6 : (List.map jsTrim (jsSplit ',' (jsTrim line))).length < 6 := by
            rcases hm with hm | hm | hm | hm | hm
            · omega
            · rw [hm] at hj; cases hj
            · exfalso
              rcases hef with h | h <;> [exact hm.2.2.2.2.1 h; exact hm.2.2.2.2.2 h]
            · exfalso
              rcases hef with h | h <;> rcases hm.1 with h5 | h5 | h5 | h5 <;>
                rw [h] at h5 <;> exact absurd h5 (by decide)
            · exact hm.2
          simp only [parseEffectEvent]
          rw [if_pos h6]
          rfl
        · rw [if_neg hef]; rfl

theorem malformed_line_skipped_witness :
    parseLine "abc,DMG,A,B,Skill,10,Pool,Hit" initState
      = { initState with
          stats := { initState.stats with totalLines := 1, skippedLines := 1 } } :=
  (malformed_line_skipped "abc,DMG,A,B,Skill,10,Pool,Hit" initState []
    (by decide) (by decide)).1

-- --- Claim C1 --------------------------------------------------------------

/-- An entity found by name has that name. -/
theorem findEntity_name (es : List Entity) (n : String) (e : Entity)
    (h : findEntity es n = some e) : e.name = n := by
  have h2 := List.find?_some h
  simpa using h2

/-- The looked-up-or-fresh entity for a name has that name. -/
theorem findEntity_getD_name (es : List Entity) (n : String) :
    ((findEntity es n).getD (freshEntity n)).name = n := by
  cases h : findEntity es n with
  | none => rfl
  | some e => exact findEntity_name es n e h

/-- The conditional sign normalization is the absolute value. -/
theorem dmgAmount_abs (a : Int) : (if a < 0 then -a else a) = |a| := by
  by_cases h : a < 0
  · rw [if_pos h, abs_of_neg h]
  · rw [if_neg h, abs_of_nonneg (not_lt.mp h)]

/-- Claim C1: for every successfully decoded numeric-event line of kind
DMG, DOT or HEAL, the amount stored in the event appended to the entity
histories — and the amount added to the running totals — is the absolute
value of the raw amount field, hence non-negative regardless of the raw
sign. -/
theorem numeric_amount_stored_abs (ts a : Int) (ty : String) (parts : List String)
    (s : ParserState)
    (hlen : ¬ parts.length < 8)
    (hamt : jsNumber (parts.getD 5 "") = some a) :
    (0:Int) ≤ |a| ∧
    (ty = "DMG" ∨ ty = "DOT" →
      ((findEntity (parseNumericEvent ts ty parts s).entities (parts.getD 2 "")).map
          Entity.damageEvents
        = some ((((findEntity s.entities (parts.getD 2 "")).getD
              (freshEntity (parts.getD 2 ""))).damageEvents)
            ++ [{ timestamp := ts, type := ty, target := parts.getD 3 ""
                  skill := parts.getD 4 "", amount := |a|
                  pool := parts.getD 6 "", hitType := parts.getD 7 "" }])) ∧
      ((findEntity (parseNumericEvent ts ty parts s).entities (parts.getD 2 "")).map
          Entity.damageDone
        = some (((findEntity s.entities (parts.getD 2 "")).getD
              (freshEntity (parts.getD 2 ""))).damageDone + |a|)) ∧
      ((findEntity (parseNumericEvent ts ty parts s).entities (parts.getD 3 "")).map
          Entity.damageTakenEvents
        = some ((((findEntity s.entities (parts.getD 3 "")).getD
              (freshEntity (parts.getD 3 ""))).damageTakenEvents)
            ++ [{ timestamp := ts, type := ty, source := parts.getD 2 ""
                  skill := parts.getD 4 "", amount := |a|
                  pool := parts.getD 6 "", hitType := parts.getD 7 "" }])) ∧
      ((findEntity (parseNumericEvent ts ty parts s).entities (parts.getD 3 "")).map
          Entity.damageReceived
        = some (((findEntity s.entities (parts.getD 3 "")).getD
              (freshEntity (parts.getD 3 ""))).damageReceived + |a|))) ∧
    (ty = "HEAL" →
      ((findEntity (parseNumericEvent ts ty parts s).entities (parts.getD 2 "")).map
          Entity.healEvents
        = some ((((findEntity s.entities (parts.getD 2 "")).getD
              (freshEntity (parts.getD 2 ""))).healEvents)
            ++ [{ timestamp := ts, type := ty, target := parts.getD 3 ""
                  skill := parts.getD 4 "", amount := |a|
                  pool := parts.getD 6 "", hitType := parts.getD 7 "" }])) ∧
      ((findEntity (parseNumericEvent ts ty parts s).entities (parts.getD 2 "")).map
          Entity.healingDone
        = some (((findEntity s.entities (parts.getD 2 "")).getD
              (freshEntity (parts.getD 2 ""))).healingDone + |a|))) := by
  refine ⟨abs_nonneg a, ?_, ?_⟩
  · intro hd
    simp only [parseNumericEvent]
    rw [if_neg hlen, hamt]
    dsimp only
    rw [if_pos hd]
    dsimp only
    by_cases hst : parts[2]?.getD "" = parts[3]?.getD ""
    · simp [findEntity_modifyEntity, findEntity_getEntity, hst, findEntity_getD_name,
        dmgAmount_abs]
    · simp [findEntity_modifyEntity, findEntity_getEntity, hst, Ne.symm hst,
        findEntity_getD_name, dmgAmount_abs]
  · intro hh
    have hd : ¬(ty = "DMG" ∨ ty = "DOT") := by subst hh; decide
    simp only [parseNumericEvent]
    rw [if_neg hlen, hamt]
    dsimp only
    rw [if_neg hd, if_pos hh]
    dsimp only
    by_cases hst : parts[2]?.getD "" = parts[3]?.getD ""
    · simp [findEntity_modifyEntity, findEntity_getEntity, hst, findEntity_getD_name]
    · simp [findEntity_modifyEntity, findEntity_getEntity, hst, Ne.symm hst,
        findEntity_getD_name]

theorem numeric_amount_stored_abs_witness :
    ((findEntity (parseNumericEvent 100 "DMG"
          ["100", "DMG", "Alice", "Bob", "Fireball", "-50", "Magic", "Crit"]
          initState).entities "Alice").map Entity.damageDone = some 50) ∧
    ((findEntity (parseNumericEvent 100 "DMG"
          ["100", "DMG", "Alice", "Bob", "Fireball", "-50", "Magic", "Crit"]
          initState).entities "Bob").map Entity.damageReceived = some 50) := by
  have h := (numeric_amount_stored_abs 100 (-50) "DMG"
      ["100", "DMG", "Alice", "Bob", "Fireball", "-50", "Magic", "Crit"] initState
      (by decide) (by decide)).2.1 (Or.inl rfl)
  exact ⟨h.2.1, h.2.2.2⟩

-- --- Claim C8 --------------------------------------------------------------

/-- Claim C8: ingesting a HEAL record appends one event to the source's
heal-done history and adds the (absolute) amount to `source.healingDone`
only; the source's other histories and totals are untouched, and a target
distinct from the source is left exactly as it was (created fresh and
empty when absent) — healing received is not tracked. -/
theorem heal_frame_effect (ts a : Int) (parts : List String) (s : ParserState)
    (hlen : ¬ parts.length < 8)
    (hamt : jsNumber (parts.getD 5 "") = some a) :
    ((findEntity (parseNumericEvent ts "HEAL" parts s).entities (parts.getD 2 "")).map
        Entity.healEvents
      = some ((((findEntity s.entities (parts.getD 2 "")).getD
            (freshEntity (parts.getD 2 ""))).healEvents)
          ++ [{ timestamp := ts, type := "HEAL", target := parts.getD 3 ""
                skill := parts.getD 4 "", amount := |a|
                pool := parts.getD 6 "", hitType := parts.getD 7 "" }])) ∧
    ((findEntity (parseNumericEvent ts "HEAL" parts s).entities (parts.getD 2 "")).map
        Entity.healingDone
      = some (((findEntity s.entities (parts.getD 2 "")).getD
            (freshEntity (parts.getD 2 ""))).healingDone + |a|)) ∧
    ((findEntity (parseNumericEvent ts "HEAL" parts s).entities (parts.getD 2 "")).map
        Entity.damageEvents
      = some (((findEntity s.entities (parts.getD 2 "")).getD
            (freshEntity (parts.getD 2 ""))).damageEvents)) ∧
    ((findEntity (parseNumericEvent ts "HEAL" parts s).entities (parts.getD 2 "")).map
        Entity.damageTakenEvents
      = some (((findEntity s.entities (parts.getD 2 "")).getD
            (freshEntity (parts.getD 2 ""))).damageTakenEvents)) ∧
    ((findEntity (parseNumericEvent ts "HEAL" parts s).entities (parts.getD 2 "")).map
        Entity.damageDone
      = some (((findEntity s.entities (parts.getD 2 "")).getD
            (freshEntity (parts.getD 2 ""))).damageDone)) ∧
    ((findEntity (parseNumericEvent ts "HEAL" parts s).entities (parts.getD 2 "")).map
        Entity.damageReceived
      = some (((findEntity s.entities (parts.getD 2 "")).getD
            (freshEntity (parts.getD 2 ""))).damageReceived)) ∧
    (parts.getD 2 "" ≠ parts.getD 3 "" →
      findEntity (parseNumericEvent ts "HEAL" parts s).entities (parts.getD 3 "")
        = some ((findEntity s.entities (parts.getD 3 "")).getD
            (freshEntity (parts.getD 3 "")))) := by
  have hd : ¬(("HEAL" : String) = "DMG" ∨ ("HEAL" : String) = "DOT") := by decide
  simp only [parseNumericEvent]
  rw [if_neg hlen, hamt]
  dsimp only
  rw [if_neg hd]
  simp only [if_true]
  by_cases hst : parts[2]?.getD "" = parts[3]?.getD ""
  · refine ⟨?_, ?_, ?_, ?_, ?_, ?_, ?_⟩ <;>
      simp [findEntity_modifyEntity, findEntity_getEntity, hst, findEntity_getD_name]
  · refine ⟨?_, ?_, ?_, ?_, ?_, ?_, ?_⟩ <;>
      simp [findEntity_modifyEntity, findEntity_getEntity, hst, Ne.symm hst,
        findEntity_getD_name]

theorem heal_frame_effect_witness :
    ((findEntity (parseNumericEvent 20 "HEAL"
          ["20", "HEAL", "Carol", "Dave", "Regen", "20", "Health", "Normal"]
          (parseLine "10,HEAL,Carol,Carol,Regen,30,Health,Normal" initState)).entities
        "Carol").map Entity.healingDone = some 50) ∧
    (findEntity (parseNumericEvent 20 "HEAL"
          ["20", "HEAL", "Carol", "Dave", "Regen", "20", "Health", "Normal"]
          (parseLine "10,HEAL,Carol,Carol,Regen,30,Health,Normal" initState)).entities
        "Dave" = some (freshEntity "Dave")) := by
  have h := heal_frame_effect 20 20
      ["20", "HEAL", "Carol", "Dave", "Regen", "20", "Health", "Normal"]
      (parseLine "10,HEAL,Carol,Carol,Regen,30,Health,Normal" initState)
      (by decide) (by decide)
  refine ⟨h.2.1.trans (by decide), (h.2.2.2.2.2.2 (by decide)).trans (by decide)⟩

-- --- Claim C3 --------------------------------------------------------------

/-- Claim C3: after ingesting any lines from the reset state, every
entity's full-log running total `damageDone` equals the sum of the amounts
in its damage-done history (likewise `healingDone` over heal events and
`damageReceived` over damage-taken events), and the resulting entities —
histories and totals — do not depend on the time filter state. -/
theorem totals_match_history (ls : List String) :
    (∀ e ∈ (parseLines ls initState).entities,
       e.damageDone = (e.damageEvents.map DoneEvent.amount).sum ∧
       e.healingDone = (e.healEvents.map DoneEvent.amount).sum ∧
       e.damageReceived = (e.damageTakenEvents.map TakenEvent.amount).sum) ∧
    (∀ f : TimeFilter,
       (parseLines ls { initState with filter := f }).entities
         = (parseLines ls initState).entities) := by
  constructor
  · intro e he
    have h := (stateInv_parseLines ls initState stateInv_initState).1 e he
    exact ⟨h.1, h.2.1, h.2.2.1⟩
  · intro f
    rw [parseLines_filter]

theorem totals_match_history_witness :
    ((50 : Int) = ([({ timestamp := 100, type := "DMG", target := "Bob", skill := "Fireball"
                       amount := 50, pool := "Magic", hitType := "Crit" } : DoneEvent)].map
        DoneEvent.amount).sum) ∧
    (parseLines ["100,DMG,Alice,Bob,Fireball,-50,Magic,Crit"]
        { initState with filter := { enabled := true, start := some 0, «end» := some 7 } }).entities
      = (parseLines ["100,DMG,Alice,Bob,Fireball,-50,Magic,Crit"] initState).entities := by
  constructor
  · exact ((totals_match_history ["100,DMG,Alice,Bob,Fireball,-50,Magic,Crit"]).1
      { name := "Alice", damageDone := 50, healingDone := 0, damageReceived := 0
        damageEvents := [{ timestamp := 100, type := "DMG", target := "Bob"
                           skill := "Fireball", amount := 50, pool := "Magic"
                           hitType := "Crit" }]
        healEvents := [], damageTakenEvents := [], buffsApplied := []
        debuffsApplied := [], buffsReceived := [], debuffsReceived := [] }
      (by decide)).1
  · exact (totals_match_history ["100,DMG,Alice,Bob,Fireball,-50,Magic,Crit"]).2
      { enabled := true, start := some 0, «end» := some 7 }

-- --- Claim C7 --------------------------------------------------------------

/-- Claim C7: for every entity of an ingested log and every metric,
widening the enabled window — replacing `[lo, hi]` by `[lo', hi']` with
`lo' ≤ lo` and `hi ≤ hi'` — never decreases the entity's windowed total
computed by the per-entity windowed aggregation. -/
theorem windowed_totals_monotone (ls : List String) (f f' : TimeFilter)
    (lo hi lo' hi' : Int)
    (hf : f = { enabled := true, start := some lo, «end» := some hi })
    (hf' : f' = { enabled := true, start := some lo', «end» := some hi' })
    (hlo : lo' ≤ lo) (hhi : hi ≤ hi') :
    ∀ e ∈ (parseLines ls initState).entities,
      (aggregateEntity f e).damageDone ≤ (aggregateEntity f' e).damageDone ∧
      (aggregateEntity f e).healingDone ≤ (aggregateEntity f' e).healingDone ∧
      (aggregateEntity f e).damageReceived ≤ (aggregateEntity f' e).damageReceived := by
  intro e he
  have hinv := (stateInv_parseLines ls initState stateInv_initState).1 e he
  have himp : ∀ t : Int,
      isInCurrentTimeFrame f t = true → isInCurrentTimeFrame f' t = true := by
    intro t ht
    subst hf; subst hf'
    simp [isInCurrentTimeFrame] at ht ⊢
    omega
  refine ⟨?_, ?_, ?_⟩
  · dsimp only [aggregateEntity]
    rw [foldl_if_sum (fun ev => isInCurrentTimeFrame f ev.timestamp)
          DoneEvent.amount e.damageEvents 0,
        foldl_if_sum (fun ev => isInCurrentTimeFrame f' ev.timestamp)
          DoneEvent.amount e.damageEvents 0]
    simp only [zero_add]
    exact sum_filter_le_sum_filter _ _ _ _ (fun ev _ h => himp ev.timestamp h)
      (fun ev hev => hinv.2.2.2.1 ev hev)
  · dsimp only [aggregateEntity]
    rw [foldl_if_sum (fun ev => isInCurrentTimeFrame f ev.timestamp)
          DoneEvent.amount e.healEvents 0,
        foldl_if_sum (fun ev => isInCurrentTimeFrame f' ev.timestamp)
          DoneEvent.amount e.healEvents 0]
    simp only [zero_add]
    exact sum_filter_le_sum_filter _ _ _ _ (fun ev _ h => himp ev.timestamp h)
      (fun ev hev => hinv.2.2.2.2.1 ev hev)
  · dsimp only [aggregateEntity]
    rw [foldl_if_sum (fun ev => isInCurrentTimeFrame f ev.timestamp)
          TakenEvent.amount e.damageTakenEvents 0,
        foldl_if_sum (fun ev => isInCurrentTimeFrame f' ev.timestamp)
          TakenEvent.amount e.damageTakenEvents 0]
    simp only [zero_add]
    exact sum_filter_le_sum_filter _ _ _ _ (fun ev _ h => himp ev.timestamp h)
      (fun ev hev => hinv.2.2.2.2.2 ev hev)

theorem windowed_totals_monotone_witness :
    (aggregateEntity { enabled := true, start := some 150, «end» := some 160 }
        { name := "Alice", damageDone := 50, healingDone := 0, damageReceived := 0
          damageEvents := [{ timestamp := 100, type := "DMG", target := "Bob"
                             skill := "Fireball", amount := 50, pool := "Magic"
                             hitType := "Crit" }]
          healEvents := [], damageTakenEvents := [], buffsApplied := []
          debuffsApplied := [], buffsReceived := [], debuffsReceived := [] }).damageDone
      ≤ (aggregateEntity { enabled := true, start := some 0, «end» := some 200 }
        { name := "Alice", damageDone := 50, healingDone := 0, damageReceived := 0
          damageEvents := [{ timestamp := 100, type := "DMG", target := "Bob"
                             skill := "Fireball", amount := 50, pool := "Magic"
                             hitType := "Crit" }]
          healEvents := [], damageTakenEvents := [], buffsApplied := []
          debuffsApplied := [], buffsReceived := [], debuffsReceived := [] }).damageDone :=
  (windowed_totals_monotone ["100,DMG,Alice,Bob,Fireball,-50,Magic,Crit"]
    { enabled := true, start := some 150, «end» := some 160 }
    { enabled := true, start := some 0, «end» := some 200 }
    150 160 0 200 rfl rfl (by decide) (by decide)
    { name := "Alice", damageDone := 50, healingDone := 0, damageReceived := 0
      damageEvents := [{ timestamp := 100, type := "DMG", target := "Bob"
                         skill := "Fireball", amount := 50, pool := "Magic"
                         hitType := "Crit" }]
      healEvents := [], damageTakenEvents := [], buffsApplied := []
      debuffsApplied := [], buffsReceived := [], debuffsReceived := [] }
    (by decide)).1

-- --- Claim C6 --------------------------------------------------------------

/-- With the filter disabled every timestamp passes. -/
theorem isInCurrentTimeFrame_disabled (f : TimeFilter) (hf : f.enabled = false)
    (t : Int) : isInCurrentTimeFrame f t = true := by
  simp [isInCurrentTimeFrame, hf]

/-- With the filter disabled, the aggregated row of an entity satisfying
the bookkeeping invariant is exactly its full-log running totals. -/
theorem aggregateEntity_unfiltered (f : TimeFilter) (hf : f.enabled = false)
    (e : Entity) (h : entityInv e) :
    aggregateEntity f e
      = { name := e.name, damageDone := e.damageDone, healingDone := e.healingDone
          damageReceived := e.damageReceived } := by
  obtain ⟨h1, h2, h3, -, -, -⟩ := h
  have hp : ∀ l : List DoneEvent,
      l.filter (fun ev => isInCurrentTimeFrame f ev.timestamp) = l := fun l =>
    List.filter_eq_self.mpr fun x _ => isInCurrentTimeFrame_disabled f hf x.timestamp
  have hq : ∀ l : List TakenEvent,
      l.filter (fun ev => isInCurrentTimeFrame f ev.timestamp) = l := fun l =>
    List.filter_eq_self.mpr fun x _ => isInCurrentTimeFrame_disabled f hf x.timestamp
  dsimp only [aggregateEntity]
  rw [foldl_if_sum (fun ev => isInCurrentTimeFrame f ev.timestamp)
        DoneEvent.amount e.damageEvents 0,
      foldl_if_sum (fun ev => isInCurrentTimeFrame f ev.timestamp)
        DoneEvent.amount e.healEvents 0,
      foldl_if_sum (fun ev => isInCurrentTimeFrame f ev.timestamp)
        TakenEvent.amount e.damageTakenEvents 0,
      hp e.damageEvents, hp e.healEvents, hq e.damageTakenEvents]
  simp [h1, h2, h3]

/-- Claim C6: a ranking list never includes an entity whose value for the
ranked metric is non-positive (non-numeric values cannot occur in the
typed embedding, so the JavaScript `typeof` guard is identically true) —
for every filter state, including the default enabled last-30-minutes
window; when the filter is disabled (full range, unfiltered) the values
of the included rows sum to the metric's global total over all entities;
and within any non-empty ranking list the percentage of each row is
`value / total * 100` and the percentages sum to exactly 100 (in exact
rational arithmetic). -/
theorem ranking_spec (ls : List String) (f : TimeFilter)
    (v : AggRow → Int) (m : Entity → Int)
    (hvm : (v = AggRow.damageDone ∧ m = Entity.damageDone) ∨
           (v = AggRow.healingDone ∧ m = Entity.healingDone) ∨
           (v = AggRow.damageReceived ∧ m = Entity.damageReceived)) :
    (∀ r ∈ rankingRows f (parseLines ls initState).entities v, 0 < v r) ∧
    (f.enabled = false →
      ((rankingRows f (parseLines ls initState).entities v).map v).sum
        = ((parseLines ls initState).entities.map m).sum) ∧
    (rankingRows f (parseLines ls initState).entities v ≠ [] →
      ((rankingRows f (parseLines ls initState).entities v).map (fun r =>
          rowPercent (tableTotal (rankingRows f (parseLines ls initState).entities v) v)
            (v r))).sum = 100) := by
  set es := (parseLines ls initState).entities with hes
  have hinv : ∀ e ∈ es, entityInv e := (stateInv_parseLines ls initState stateInv_initState).1
  have ha : ∀ r ∈ rankingRows f es v, 0 < v r := by
    intro r hr
    unfold rankingRows tableFilteredRows at hr
    exact of_decide_eq_true (List.mem_filter.mp hr).2
  have hb : f.enabled = false → ((rankingRows f es v).map v).sum = (es.map m).sum := by
    intro hf
    have hvm' : ∀ e ∈ es, v (aggregateEntity f e) = m e := by
      intro e he
      rw [aggregateEntity_unfiltered f hf e (hinv e he)]
      rcases hvm with ⟨hv, hm⟩ | ⟨hv, hm⟩ | ⟨hv, hm⟩ <;> subst hv <;> subst hm <;> rfl
    have hnn : ∀ e ∈ es, 0 ≤ m e := by
      intro e he
      obtain ⟨h1, h2, h3, h4, h5, h6⟩ := hinv e he
      rcases hvm with ⟨hv, hm⟩ | ⟨hv, hm⟩ | ⟨hv, hm⟩ <;> subst hm
      · rw [h1]
        refine List.sum_nonneg ?_
        intro x hx
        obtain ⟨ev, hev, rfl⟩ := List.mem_map.mp hx
        exact h4 ev hev
      · rw [h2]
        refine List.sum_nonneg ?_
        intro x hx
        obtain ⟨ev, hev, rfl⟩ := List.mem_map.mp hx
        exact h5 ev hev
      · rw [h3]
        refine List.sum_nonneg ?_
        intro x hx
        obtain ⟨ev, hev, rfl⟩ := List.mem_map.mp hx
        exact h6 ev hev
    have hsorted_perm : (sortRowsDesc v (buildAggregatedEntitiesForCurrentTimeFrame f es)).Perm
        (buildAggregatedEntitiesForCurrentTimeFrame f es) := List.mergeSort_perm _ _
    have hmem : ∀ r ∈ sortRowsDesc v (buildAggregatedEntitiesForCurrentTimeFrame f es),
        0 ≤ v r := by
      intro r hr
      have hr2 : r ∈ buildAggregatedEntitiesForCurrentTimeFrame f es :=
        hsorted_perm.mem_iff.mp hr
      obtain ⟨e, he, rfl⟩ := List.mem_map.mp hr2
      rw [hvm' e he]
      exact hnn e he
    unfold rankingRows tableFilteredRows
    rw [sum_filter_pos_eq _ v hmem, (hsorted_perm.map v).sum_eq]
    unfold buildAggregatedEntitiesForCurrentTimeFrame
    rw [List.map_map]
    exact congrArg List.sum (List.map_congr_left fun e he => hvm' e he)
  refine ⟨ha, hb, ?_⟩
  intro hne
  have htot : tableTotal (rankingRows f es v) v = ((rankingRows f es v).map v).sum := by
    unfold tableTotal
    rw [foldl_add_sum]
    simp
  have hTpos : 0 < ((rankingRows f es v).map v).sum := by
    rcases hR : rankingRows f es v with _ | ⟨r0, R'⟩
    · exact absurd hR hne
    · simp only [List.map_cons, List.sum_cons]
      have h0 := ha r0 (hR ▸ List.mem_cons_self r0 R')
      have hrest : 0 ≤ (R'.map v).sum := by
        refine List.sum_nonneg ?_
        intro x hx
        obtain ⟨r, hr, rfl⟩ := List.mem_map.mp hx
        exact le_of_lt (ha r (hR ▸ List.mem_cons_of_mem r0 hr))
      omega
  rw [htot]
  have hTq : (((((rankingRows f es v).map v).sum : Int)) : Rat) ≠ 0 :=
    Int.cast_ne_zero.mpr (by omega)
  calc ((rankingRows f es v).map fun r =>
          rowPercent (((rankingRows f es v).map v).sum) (v r)).sum
      = ((rankingRows f es v).map fun r =>
          ((v r : Int) : Rat) * (100 / ((((rankingRows f es v).map v).sum : Int) : Rat))).sum := by
        refine congrArg List.sum (List.map_congr_left ?_)
        intro r hr
        unfold rowPercent
        rw [if_pos hTpos, div_mul_eq_mul_div, mul_div_assoc]
    _ = ((rankingRows f es v).map fun r => ((v r : Int) : Rat)).sum
          * (100 / ((((rankingRows f es v).map v).sum : Int) : Rat)) := by
        rw [← List.sum_map_mul_right]
    _ = ((((rankingRows f es v).map v).sum : Int) : Rat)
          * (100 / ((((rankingRows f es v).map v).sum : Int) : Rat)) := by
        rw [Int.cast_list_sum, List.map_map]
        rfl
    _ = 100 := by
        rw [mul_comm, div_mul_cancel₀ _ hTq]

theorem ranking_spec_witness :
    (((rankingRows { enabled := false, start := none, «end» := none }
        (parseLines ["100,DMG,Alice,Bob,Fireball,-50,Magic,Crit"] initState).entities
        AggRow.damageDone).map AggRow.damageDone).sum
      = ((parseLines ["100,DMG,Alice,Bob,Fireball,-50,Magic,Crit"] initState).entities.map
          Entity.damageDone).sum) ∧
    (∀ r ∈ rankingRows { enabled := true, start := some 0, «end» := some 200 }
        (parseLines ["100,DMG,Alice,Bob,Fireball,-50,Magic,Crit"] initState).entities
        AggRow.damageDone, 0 < AggRow.damageDone r) ∧
    (rankingRows { enabled := true, start := some 0, «end» := some 200 }
        (parseLines ["100,DMG,Alice,Bob,Fireball,-50,Magic,Crit"] initState).entities
        AggRow.damageDone ≠ [] →
      ((rankingRows { enabled := true, start := some 0, «end» := some 200 }
          (parseLines ["100,DMG,Alice,Bob,Fireball,-50,Magic,Crit"] initState).entities
          AggRow.damageDone).map (fun r =>
        rowPercent (tableTotal (rankingRows { enabled := true, start := some 0, «end» := some 200 }
            (parseLines ["100,DMG,Alice,Bob,Fireball,-50,Magic,Crit"] initState).entities
            AggRow.damageDone) AggRow.damageDone) (AggRow.damageDone r))).sum = 100) :=
  ⟨(ranking_spec ["100,DMG,Alice,Bob,Fireball,-50,Magic,Crit"]
      { enabled := false, start := none, «end» := none }
      AggRow.damageDone Entity.damageDone (Or.inl ⟨rfl, rfl⟩)).2.1 rfl,
   (ranking_spec ["100,DMG,Alice,Bob,Fireball,-50,Magic,Crit"]
      { enabled := true, start := some 0, «end» := some 200 }
      AggRow.damageDone Entity.damageDone (Or.inl ⟨rfl, rfl⟩)).1,
   (ranking_spec ["100,DMG,Alice,Bob,Fireball,-50,Magic,Crit"]
      { enabled := true, start := some 0, «end» := some 200 }
      AggRow.damageDone Entity.damageDone (Or.inl ⟨rfl, rfl⟩)).2.2⟩

end LogViewer
